import Mathlib

/-!
Verification development for the documentation-build orchestrator
(`docs/docs_build.py`, class `DocsBuilder`).

The script is glue code over shell commands (`git`, `yarn`, `zip`), HTTP zip
downloads and filesystem moves.  We embed it shallowly:

* external commands are structured values (`Cmd`) rendered to the exact
  command strings the source builds; the collaborator `Context.run` is an
  oracle `World.runner : Cmd → CmdResult`;
* the filesystem facts the orchestrator manipulates (the `versioned_code`
  directory listing, the descriptor file `docs/components/_data.jsx`, the
  checked-out git ref) are an explicit state record `DocsState`, together
  with a chronological event trace;
* fallible steps return `Res α`, which keeps the state both on the success
  and on the error path (Python exceptions unwind but leave effects behind);
* `zipfile` archive contents and `versions.json` are provided by the
  `World` oracle, mirroring the remote archives.

The `Version` class lives in `docs/prepare_prior_versions.py`, which is not
part of this tree; it is modelled from the specification (see `Version`).
-/

namespace DocsBuild

/-! ### Dot-splitting of strings (used by the spec-modelled `Version`) -/

/-- Split a character list at every dot, keeping empty groups, exactly like
Python's `str.split(".")` (so `splitDots []` is `[[]]`). -/
def splitDots : List Char → List (List Char)
  | [] => [[]]
  | c :: rest =>
    if c = '.' then [] :: splitDots rest
    else
      match splitDots rest with
      | [] => [[c]]
      | g :: gs => (c :: g) :: gs

/-- Join character groups with dots, the inverse of `splitDots`
(Python's `".".join`). -/
def joinDots : List (List Char) → List Char
  | [] => []
  | [g] => g
  | g :: gs => g ++ '.' :: joinDots gs

theorem splitDots_ne_nil (cs : List Char) : splitDots cs ≠ [] := by
  cases cs with
  | nil => simp [splitDots]
  | cons c rest =>
    simp only [splitDots]
    split
    · simp
    · split
      · simp
      · simp

theorem joinDots_splitDots (cs : List Char) : joinDots (splitDots cs) = cs := by
  induction cs with
  | nil => rfl
  | cons c rest ih =>
    simp only [splitDots]
    split
    · rename_i hc
      subst hc
      rcases h : splitDots rest with _ | ⟨g, gs⟩
      · exact absurd h (splitDots_ne_nil rest)
      · rw [h] at ih
        simpa [joinDots] using ih
    · rcases h : splitDots rest with _ | ⟨g, gs⟩
      · exact absurd h (splitDots_ne_nil rest)
      · rw [h] at ih
        cases gs with
        | nil => simpa [joinDots] using ih
        | cons g' gs' => simpa [joinDots] using ih

/-! ### Version (modelled from the spec) -/

/-- Modelled from the spec: the `Version` class is defined in
`docs/prepare_prior_versions.py`, which is not part of this tree.  Per the
spec (§3) a `Version` is "a parsed semantic-version-like value constructed
from a string tag", "used only as an opaque key for directory names,
comparisons, and set membership", with "no internal invariants beyond
'string matches a numeric-dot-numeric pattern'".  We model it as the
dot-separated components of the tag string. -/
structure Version where
  parts : List (List Char)
deriving DecidableEq

/-- Modelled from the spec: `Version.from_string` parses a tag string into
its dot-separated components. -/
def Version.from_string (s : String) : Version :=
  ⟨splitDots s.toList⟩

/-- Modelled from the spec: rendering a `Version` back to a string
(Python `str(version)`), joining the components with dots. -/
def Version.str (v : Version) : String :=
  ⟨joinDots v.parts⟩

/-- The "numeric-dot-numeric" pattern of the spec: at least two
dot-separated groups, each a nonempty run of digits. -/
def numericDotNumeric (s : String) : Bool :=
  decide (2 ≤ (splitDots s.toList).length) &&
    (splitDots s.toList).all (fun g => decide (g ≠ []) && g.all Char.isDigit)

/-! ### Commands and their results -/

/-- The external commands the orchestrator issues, as structured values.
`Cmd.render` gives the exact command string the source builds. -/
inductive Cmd where
  | gitRevParseHead
  | gitRevParseBranch
  | gitCheckout (ref : String)
  | gitCheckoutDash
  | gitTag
  | yarnDocsVersion (v : String)
  | yarnBuild
  | yarnStart
  | zipVersions
  | invokeApiDocs
deriving DecidableEq

/-- The exact command strings appearing in `docs_build.py`. -/
def Cmd.render : Cmd → String
  | .gitRevParseHead => "git rev-parse HEAD"
  | .gitRevParseBranch => "git rev-parse --abbrev-ref HEAD"
  | .gitCheckout ref => "git checkout " ++ ref
  | .gitCheckoutDash => "git checkout -"
  | .gitTag => "git tag"
  | .yarnDocsVersion v => "yarn docusaurus docs:version " ++ v
  | .yarnBuild => "yarn build"
  | .yarnStart => "yarn start"
  | .zipVersions =>
      "zip -r oss_docs_versions.zip versioned_code versioned_docs versioned_sidebars versions.json"
  | .invokeApiDocs => "(cd ../../; invoke api-docs)"

/-- The object returned by the collaborator `Context.run`: its Python
truthiness, its `ok` flag and its captured standard output. -/
structure CmdResult where
  truthy : Bool
  ok : Bool
  stdout : String
deriving DecidableEq

/-- The failure conditions of the orchestrator. -/
inductive Err where
  | duplicateVersion (v : String)
  | commandFailed (c : Cmd)
  | runFailed (c : Cmd)
  | moveFailed (src dst : String)
  | assertionFailed
  | indexError
deriving DecidableEq

/-- Rendered error messages.  `runFailed` is the f-string raised by `_run`
(line 216); `duplicateVersion` the one raised by `create_version`
(line 72). -/
def Err.message : Err → String
  | .duplicateVersion v => "Version " ++ v ++ " already exists"
  | .commandFailed c => "command failed: " ++ c.render
  | .runFailed c => "Failed to run command: " ++ c.render
  | .moveFailed src dst => "cannot move " ++ src ++ " to " ++ dst
  | .assertionFailed => "assertion failed"
  | .indexError => "list index out of range"

/-! ### Filesystem model -/

/-- A file tree: either a file with contents or a directory with named
children.  Only the `versioned_code` directory is tracked at this level of
detail; everything else the orchestrator touches is recorded in the event
trace. -/
inductive FsTree where
  | file (content : String)
  | dir (children : List (String × FsTree))

/-- Look an entry up by name in a directory listing. -/
def findEntry (name : String) : List (String × FsTree) → Option FsTree
  | [] => none
  | (n, t) :: rest => if n = name then some t else findEntry name rest

/-- Insert-or-replace an entry in a directory listing: the effect of
extracting one top-level archive entry into the directory. -/
def upsert (es : List (String × FsTree)) (name : String) (t : FsTree) :
    List (String × FsTree) :=
  if es.any (fun e => decide (e.1 = name)) then
    es.map (fun e => if e.1 = name then (name, t) else e)
  else es ++ [(name, t)]

/-- Extract a whole archive deposit (a list of top-level entries) into a
directory listing (`ZipFile.extractall`). -/
def extractEntries (es deposit : List (String × FsTree)) :
    List (String × FsTree) :=
  deposit.foldl (fun acc nt => upsert acc nt.1 nt.2) es

/-- The semantics of `shutil.move src dst` at the top level of
`versioned_code`: if `dst` does not exist the source directory is renamed
to `dst`; if `dst` exists as a directory the source is moved *inside* it
(becoming `dst/src`), raising if that nested name already exists; raising
if `src` is missing or `dst` is a file. -/
def moveEntry (es : List (String × FsTree)) (src dst : String) :
    Except Err (List (String × FsTree)) :=
  match findEntry src es with
  | none => .error (.moveFailed src dst)
  | some t =>
    let rest := es.filter (fun e => decide (e.1 ≠ src))
    match findEntry dst rest with
    | none => .ok (rest ++ [(dst, t)])
    | some (.dir children) =>
      match findEntry src children with
      | some _ => .error (.moveFailed src dst)
      | none =>
        .ok (rest.map (fun e => if e.1 = dst then (dst, FsTree.dir ((src, t) :: children)) else e))
    | some (.file _) => .error (.moveFailed src dst)

/-! ### Orchestrator state -/

/-- The version-control facts the orchestrator depends on: the currently
checked-out ref and the previously checked-out ref (the target of
`git checkout -`). -/
structure GitState where
  head : String
  prev : String
deriving DecidableEq

/-- The chronological trace of side effects. -/
inductive Event where
  | cmd (c : Cmd)
  | rmtreeVersionedCode
  | mkdirVersionedCode
  | httpGet (url : String)
  | extract (dest : String)
  | readDescriptor
  | writeDescriptor (content : String)
  | move (src dst : String)
  | chdir (d : String)
  | prepareVersion (v : String)
  | prepareVersions

/-- The mutable state of a run: the `versioned_code` directory listing
(`none` when the directory is absent), the contents of the descriptor file
`docs/components/_data.jsx`, the git state, and the event trace (appended
in execution order). -/
structure DocsState where
  versionedCode : Option (List (String × FsTree))
  dataJsx : String
  git : GitState
  events : List Event

/-- Append one event to the trace. -/
def pushEvent (e : Event) (s : DocsState) : DocsState :=
  { s with events := s.events ++ [e] }

/-- The commands recorded in a trace, in order. -/
def cmdsOf (events : List Event) : List Cmd :=
  events.filterMap fun e =>
    match e with
    | .cmd c => some c
    | _ => none

/-- The descriptor-file writes recorded in a trace, in order. -/
def descriptorWrites (events : List Event) : List String :=
  events.filterMap fun e =>
    match e with
    | .writeDescriptor c => some c
    | _ => none

/-- The external world: the collaborator command runner, the contents of
the remote versions archive (what it deposits into `versioned_code` and
its `versions.json` list), and per tag the top-level entries the GitHub
source archive deposits into `versioned_code`. -/
structure World where
  runner : Cmd → CmdResult
  s3CodeDeposit : List (String × FsTree)
  s3Versions : List String
  codeDeposit : String → List (String × FsTree)

/-- The context captured at `DocsBuilder.__init__`: flags plus the commit
hash and branch name recorded at construction. -/
structure Builder where
  isPullRequest : Bool
  isLocal : Bool
  currentCommit : String
  currentBranch : String

/-! ### Step results -/

/-- Result of a fallible step: the state is kept on both paths, because a
Python exception unwinds but leaves the side effects performed so far in
place. -/
inductive Res (α : Type) where
  | ok (a : α) (s : DocsState)
  | err (e : Err) (s : DocsState)

/-- Sequencing of fallible steps (the normal sequential flow of the
script; an error aborts everything after it, nothing is caught). -/
def Res.bind {α β : Type} (r : Res α) (f : α → DocsState → Res β) : Res β :=
  match r with
  | .ok a s => f a s
  | .err e s => .err e s

/-! ### The command helpers -/

/-- The git effect of a successful command: `git checkout REF` records the
old head as the previous ref; `git checkout -` swaps head and previous
ref; nothing else moves the checkout. -/
def applyGitEffect (c : Cmd) (g : GitState) : GitState :=
  match c with
  | .gitCheckout ref => ⟨ref, g.head⟩
  | .gitCheckoutDash => ⟨g.prev, g.head⟩
  | _ => g

/-- Python `str.strip()`: remove leading and trailing whitespace. -/
def pyStrip (s : String) : String :=
  ⟨((s.toList.dropWhile Char.isWhitespace).reverse.dropWhile Char.isWhitespace).reverse⟩

/-- Embeds `DocsBuilder._run` (lines 211-217) as a function of the collaborator
result: `if not result: return None / elif not result.ok: raise / return
result.stdout.strip()`. -/
def run_result (result : CmdResult) (command : Cmd) : Except Err (Option String) :=
  if !result.truthy then Except.ok none
  else if !result.ok then Except.error (Err.runFailed command)
  else Except.ok (some (pyStrip result.stdout))

/-- Embeds `DocsBuilder._run_and_get_output` (lines 219-222): `_run` plus
`assert output` (which fails on `None` and on the empty string). -/
def run_and_get_output (result : CmdResult) (command : Cmd) : Except Err String :=
  match run_result result command with
  | Except.error e => Except.error e
  | Except.ok none => Except.error Err.assertionFailed
  | Except.ok (some out) =>
    if out = "" then Except.error Err.assertionFailed else Except.ok out

/-- A direct `self._context.run(cmd)` statement: the command runs (and is
traced); on non-success the collaborator raises (invoke's default
behaviour, spec §7: every non-success surfaces immediately), otherwise its
git effect is applied. -/
def ctx_run (w : World) (c : Cmd) (s : DocsState) : Res Unit :=
  let s := pushEvent (.cmd c) s
  if (w.runner c).ok then .ok () { s with git := applyGitEffect c s.git }
  else .err (.commandFailed c) s

/-- A `self._run(cmd)` call as a step: the command runs (and is traced,
with its git effect when it reports success), then the result is
interpreted by `run_result`. -/
def run_step (w : World) (c : Cmd) (s : DocsState) : Res (Option String) :=
  let r := w.runner c
  let s := pushEvent (.cmd c) s
  let s := if r.ok then { s with git := applyGitEffect c s.git } else s
  match run_result r c with
  | Except.error e => .err e s
  | Except.ok out => .ok out s

/-! ### Archive loading -/

/-- Modelled from the spec: the external constant `S3_URL` lives in
`docs/docs_version_bucket_info.py`, not in this tree; it is the remote
storage URL of the versions archive (spec §6). -/
def S3_URL : String := "s3-oss-docs-versions-archive"

/-- Embeds `DocsBuilder._load_zip` (lines 135-142): fetch a zip into memory and
hand the opened archive to the body inside a scoped `with` block; the
handle is closed when the block is left, whether the body succeeded or
raised. -/
structure ZipHandle where
  url : String
  closed : Bool

/-- The `with zipfile.ZipFile(...) as zip_ref` block of `_load_zip`: run
the body on the open handle and close the handle on either exit path. -/
def load_zip {α : Type} (url : String) (body : ZipHandle → Except Err α) :
    Except Err α × ZipHandle :=
  let zipRef : ZipHandle := ⟨url, false⟩
  match body zipRef with
  | Except.ok a => (Except.ok a, { zipRef with closed := true })
  | Except.error e => (Except.error e, { zipRef with closed := true })

/-- Embeds `DocsBuilder._load_all_versioned_docs` (lines 157-165): delete
`versioned_code` if present, recreate it empty, download the remote
versions archive, extract it into the working directory, and parse
`versions.json` into a list of `Version`.  This step runs no external
command and cannot fail in the model (network errors are out of scope of
the claims about it), so it returns a plain pair. -/
def load_all_versioned_docs (w : World) (s : DocsState) :
    List Version × DocsState :=
  let s :=
    if s.versionedCode.isSome then
      pushEvent .rmtreeVersionedCode { s with versionedCode := none }
    else s
  let s := pushEvent .mkdirVersionedCode { s with versionedCode := some [] }
  let s := pushEvent (.httpGet S3_URL) s
  let s :=
    pushEvent (.extract "current_directory")
      { s with
        versionedCode := some (extractEntries (s.versionedCode.getD []) w.s3CodeDeposit) }
  (w.s3Versions.map Version.from_string, s)

/-- The GitHub archive URL built by `_load_versioned_code` (line 171). -/
def codeArchiveUrl (v : String) : String :=
  "https://github.com/great-expectations/great_expectations/archive/refs/tags/" ++ v ++ ".zip"

/-- Embeds `DocsBuilder._load_versioned_code` (lines 167-179): download the tag's
source archive, extract it under `versioned_code`, then
`shutil.move versioned_code/great_expectations-VERSION
versioned_code/version-VERSION`. -/
def load_versioned_code (w : World) (v : Version) (s : DocsState) : Res Unit :=
  let s := pushEvent (.httpGet (codeArchiveUrl v.str)) s
  let entries := extractEntries (s.versionedCode.getD []) (w.codeDeposit v.str)
  let s := pushEvent (.extract "versioned_code") { s with versionedCode := some entries }
  match moveEntry entries ("great_expectations-" ++ v.str) ("version-" ++ v.str) with
  | Except.error e => .err e s
  | Except.ok entries' =>
    .ok ()
      (pushEvent (.move ("great_expectations-" ++ v.str) ("version-" ++ v.str))
        { s with versionedCode := some entries' })

/-! ### The descriptor file -/

/-- Embeds `DocsBuilder._read_prior_release_version_file` (lines 203-205). -/
def read_prior_release_version_file (s : DocsState) : String × DocsState :=
  (s.dataJsx, pushEvent .readDescriptor s)

/-- Embeds `DocsBuilder._write_release_version` (lines 207-209). -/
def write_release_version (content : String) (s : DocsState) : DocsState :=
  pushEvent (.writeDescriptor content) { s with dataJsx := content }

/-- Embeds `MIN_PYTHON_VERSION = 3.8` (line 65); the float renders as "3.8"
inside the f-string. -/
def MIN_PYTHON_VERSION : String := "3.8"

/-- Embeds `MAX_PYTHON_VERSION = 3.8` (line 66). -/
def MAX_PYTHON_VERSION : String := "3.8"

/-- The generated descriptor module `create_version` writes
(lines 77-88). -/
def release_version_content (version : String) : String :=
  String.intercalate "\n"
    ["// this file is autogenerated",
     "export default \x7b",
     "  release_version: \x27great_expectations, version " ++ version ++ "\x27,",
     "   min_python: \x27" ++ MIN_PYTHON_VERSION ++ "\x27,",
     "   max_python: \x27" ++ MAX_PYTHON_VERSION ++ "\x27,",
     "\x7d"]

/-! ### The public operations -/

/-- Embeds `DocsBuilder._invoke_api_docs` (lines 181-188): runs
`(cd ../../; invoke api-docs)` through `_run`, dropping the output. -/
def invoke_api_docs (w : World) (s : DocsState) : Res Unit :=
  Res.bind (run_step w .invokeApiDocs s) fun _ s => .ok () s

/-- Embeds `DocsBuilder.create_version` (lines 63-116), step by step in source
order. -/
def create_version (w : World) (v : Version) (s : DocsState) : Res Unit :=
  let loaded := load_all_versioned_docs w s
  if v ∈ loaded.1 then .err (.duplicateVersion v.str) loaded.2
  else
    Res.bind (ctx_run w (.gitCheckout v.str) loaded.2) fun _ s =>
    let rd := read_prior_release_version_file s
    let old_version_file := rd.1
    let s := write_release_version (release_version_content v.str) rd.2
    Res.bind (ctx_run w (.yarnDocsVersion v.str) s) fun _ s =>
    Res.bind (load_versioned_code w v s) fun _ s =>
    let s := pushEvent (.chdir "..") s
    let s := pushEvent (.prepareVersion v.str) s
    let s := pushEvent (.chdir "docusaurus") s
    Res.bind (ctx_run w .zipVersions s) fun _ s =>
    let s := write_release_version old_version_file s
    Res.bind (ctx_run w .gitCheckoutDash s) fun _ s =>
    Res.bind (invoke_api_docs w s) fun _ s =>
    Res.bind (ctx_run w .yarnBuild s) fun _ s =>
    .ok () s

/-- The per-version loop of `_load_files` (lines 153-154). -/
def load_codes (w : World) : List Version → DocsState → Res Unit
  | [], s => .ok () s
  | v :: vs, s =>
    Res.bind (load_versioned_code w v s) fun _ s => load_codes w vs s

/-- Embeds `DocsBuilder._load_files` (lines 144-155). -/
def load_files (w : World) (s : DocsState) : Res (List Version) :=
  let loaded := load_all_versioned_docs w s
  Res.bind (load_codes w loaded.1 loaded.2) fun _ s => .ok loaded.1 s

/-- Embeds `DocsBuilder._checkout_correct_branch` (lines 190-201): check out the
construction-time branch when running locally, else the construction-time
commit. -/
def checkout_correct_branch (b : Builder) (w : World) (s : DocsState) : Res Unit :=
  if b.isLocal then
    Res.bind (run_step w (.gitCheckout b.currentBranch) s) fun _ s => .ok () s
  else
    Res.bind (run_step w (.gitCheckout b.currentCommit) s) fun _ s => .ok () s

/-- Embeds `DocsBuilder._prepare` (lines 118-133). -/
def prepare (b : Builder) (w : World) (s : DocsState) : Res Unit :=
  Res.bind (load_files w s) fun _ s =>
  let s := pushEvent (.chdir "..") s
  let s := pushEvent .prepareVersions s
  let s := pushEvent (.chdir "docusaurus") s
  Res.bind (invoke_api_docs w s) fun _ s =>
  checkout_correct_branch b w s

/-- Embeds `DocsBuilder.build_docs` (lines 44-55). -/
def build_docs (w : World) (s : DocsState) : Res Unit :=
  Res.bind (invoke_api_docs w (load_all_versioned_docs w s).2) fun _ s =>
  ctx_run w .yarnBuild s

/-- Embeds `DocsBuilder.build_docs_locally` (lines 57-61). -/
def build_docs_locally (b : Builder) (w : World) (s : DocsState) : Res Unit :=
  Res.bind (prepare b w s) fun _ s =>
  ctx_run w .yarnStart s

/-! ### The latest-tag helper -/

/-- Whether `re.match` with the pattern of `_tag_regex` (line 241),
`([0-9]+\.)+[0-9]+`, succeeds on a string: a match anchored at the start
exists exactly when the string begins with one or more digits, then a dot,
then a further digit. -/
def tag_match (s : String) : Bool :=
  decide (s.toList.takeWhile Char.isDigit ≠ []) &&
    (match s.toList.dropWhile Char.isDigit with
     | '.' :: d :: _ => d.isDigit
     | _ => false)

/-- Accumulating splitter behind `splitWS`. -/
def splitWSAux : List Char → List Char → List (List Char)
  | [], acc => if acc = [] then [] else [acc.reverse]
  | c :: rest, acc =>
    if c.isWhitespace then
      if acc = [] then splitWSAux rest []
      else acc.reverse :: splitWSAux rest []
    else splitWSAux rest (c :: acc)

/-- Python `str.split()` with no argument: split on whitespace runs,
dropping empty pieces. -/
def splitWS (s : String) : List String :=
  (splitWSAux s.toList []).map (fun g => ⟨g⟩)

/-- Code-point lexicographic comparison of character lists: `true` when
the first list is less than or equal to the second. -/
def charListLeb : List Char → List Char → Bool
  | [], _ => true
  | _ :: _, [] => false
  | a :: as, b :: bs =>
    if a < b then true else if b < a then false else charListLeb as bs

/-- Python's string comparison (used by `sorted` on a list of strings):
code-point lexicographic order. -/
def pyStrLe (a b : String) : Bool :=
  charListLeb a.toList b.toList

/-- Embeds `DocsBuilder._latest_tag` (lines 228-233): run `git tag`, assert the
output is present, keep the tags matching `_tag_regex`, sort them as
strings (Python's lexicographic string order) and take the last. -/
def latest_tag (w : World) (s : DocsState) : Res String :=
  Res.bind (run_step w .gitTag s) fun out s =>
    match out with
    | none => .err .assertionFailed s
    | some tags_string =>
      let tags := (splitWS tags_string).filter tag_match
      match (tags.mergeSort pyStrLe).getLast? with
      | none => .err .indexError s
      | some t => .ok t s

/-- Numeric value of a digit group. -/
def natOfDigits (g : List Char) : Nat :=
  g.foldl (fun n c => 10 * n + (c.toNat - 48)) 0

/-- The numeric components of a version string. -/
def versionNums (s : String) : List Nat :=
  (splitDots s.toList).map natOfDigits

/-- Lexicographic order on numeric component lists (Python tuple
comparison of parsed versions): the numeric version ordering. -/
def numListLt : List Nat → List Nat → Bool
  | _, [] => false
  | [], _ :: _ => true
  | a :: as, b :: bs => decide (a < b) || (decide (a = b) && numListLt as bs)

/-- Numeric version ordering on version strings. -/
def numericVersionLt (a b : String) : Bool :=
  numListLt (versionNums a) (versionNums b)

/-! ### Helper lemmas about the step combinators -/

theorem Res.bind_eq_ok {α β : Type} {r : Res α} {f : α → DocsState → Res β}
    {x : β} {s' : DocsState} (h : Res.bind r f = .ok x s') :
    ∃ a sm, r = .ok a sm ∧ f a sm = .ok x s' := by
  cases r with
  | ok a sm => exact ⟨a, sm, rfl, h⟩
  | err e sm => exact Res.noConfusion h

theorem ctx_run_eq_ok {w : World} {c : Cmd} {s : DocsState} {x : Unit}
    {s' : DocsState} (h : ctx_run w c s = .ok x s') :
    (w.runner c).ok = true ∧
      s' = { s with git := applyGitEffect c s.git, events := s.events ++ [.cmd c] } := by
  unfold ctx_run pushEvent at h
  split at h
  · rename_i hok
    injection h with h1 h2
    subst h2
    exact ⟨hok, rfl⟩
  · exact Res.noConfusion h

theorem ctx_run_eq_err {w : World} {c : Cmd} {s : DocsState} {e : Err}
    {s' : DocsState} (h : ctx_run w c s = .err e s') :
    (w.runner c).ok = false ∧ e = .commandFailed c ∧
      s' = { s with events := s.events ++ [.cmd c] } := by
  unfold ctx_run pushEvent at h
  split at h
  · exact Res.noConfusion h
  · rename_i hok
    injection h with h1 h2
    subst h1
    subst h2
    exact ⟨by simpa using hok, rfl, rfl⟩

theorem run_step_ok_frame {w : World} {c : Cmd} {s : DocsState}
    {out : Option String} {s' : DocsState} (h : run_step w c s = .ok out s') :
    s'.dataJsx = s.dataJsx ∧ s'.versionedCode = s.versionedCode ∧
      s'.events = s.events ++ [.cmd c] ∧
      (s'.git = applyGitEffect c s.git ∨ s'.git = s.git) := by
  simp only [run_step, pushEvent] at h
  split at h
  · exact Res.noConfusion h
  · injection h with h1 h2
    subst h2
    split <;> simp

theorem load_all_dataJsx (w : World) (s : DocsState) :
    ((load_all_versioned_docs w s).2).dataJsx = s.dataJsx := by
  unfold load_all_versioned_docs pushEvent
  split <;> rfl

theorem load_all_git (w : World) (s : DocsState) :
    ((load_all_versioned_docs w s).2).git = s.git := by
  unfold load_all_versioned_docs pushEvent
  split <;> rfl

theorem load_all_versionedCode (w : World) (s : DocsState) :
    ((load_all_versioned_docs w s).2).versionedCode
      = some (extractEntries [] w.s3CodeDeposit) := by
  unfold load_all_versioned_docs pushEvent
  split <;> rfl

theorem load_all_fst (w : World) (s : DocsState) :
    (load_all_versioned_docs w s).1 = w.s3Versions.map Version.from_string := by
  unfold load_all_versioned_docs
  split <;> rfl

theorem load_all_events (w : World) (s : DocsState) :
    ∃ new, ((load_all_versioned_docs w s).2).events = s.events ++ new ∧
      descriptorWrites new = [] ∧ cmdsOf new = [] := by
  unfold load_all_versioned_docs pushEvent
  split
  · exact ⟨[.rmtreeVersionedCode, .mkdirVersionedCode, .httpGet S3_URL,
      .extract "current_directory"], by simp, rfl, rfl⟩
  · exact ⟨[.mkdirVersionedCode, .httpGet S3_URL, .extract "current_directory"],
      by simp, rfl, rfl⟩

theorem load_versioned_code_ok_frame {w : World} {v : Version} {s : DocsState}
    {x : Unit} {s' : DocsState} (h : load_versioned_code w v s = .ok x s') :
    s'.dataJsx = s.dataJsx ∧ s'.git = s.git ∧
      ∃ new, s'.events = s.events ++ new ∧ descriptorWrites new = [] ∧ cmdsOf new = [] := by
  simp only [load_versioned_code, pushEvent] at h
  split at h
  · exact Res.noConfusion h
  · injection h with h1 h2
    subst h2
    refine ⟨rfl, rfl, ⟨[.httpGet (codeArchiveUrl v.str), .extract "versioned_code",
      .move ("great_expectations-" ++ v.str) ("version-" ++ v.str)], by simp, rfl, rfl⟩⟩

theorem descriptorWrites_append (l₁ l₂ : List Event) :
    descriptorWrites (l₁ ++ l₂) = descriptorWrites l₁ ++ descriptorWrites l₂ := by
  unfold descriptorWrites
  exact List.filterMap_append l₁ l₂ _

theorem cmdsOf_append (l₁ l₂ : List Event) :
    cmdsOf (l₁ ++ l₂) = cmdsOf l₁ ++ cmdsOf l₂ := by
  unfold cmdsOf
  exact List.filterMap_append l₁ l₂ _

/-! ### Claim theorems -/

/-- C6: for every starting filesystem state, running the
load-all-versioned-docs step twice in succession (against the same remote
archive) yields an identical `versioned_code` directory listing after each
call, and the resulting listing does not depend on the starting state at
all: the directory is deleted and fully recreated on every call, with no
merge of prior local state. -/
theorem c6_load_all_clean_rebuild (w : World) (s s₁ : DocsState) :
    ((load_all_versioned_docs w ((load_all_versioned_docs w s).2)).2).versionedCode
        = ((load_all_versioned_docs w s).2).versionedCode
      ∧ ((load_all_versioned_docs w s).2).versionedCode
        = ((load_all_versioned_docs w s₁).2).versionedCode := by
  constructor <;>
    simp only [load_all_versionedCode]

/-- C7: the fetch-and-extract helper `_load_zip` closes the opened archive
handle on every exit path: whatever the body does on the open handle
(finishes normally or raises partway), the handle is closed when the
`with` block is left. -/
theorem c7_load_zip_always_closed {α : Type} (url : String)
    (body : ZipHandle → Except Err α) :
    ((load_zip url body).2).closed = true := by
  simp only [load_zip]
  split <;> rfl

/-- C8: for every string matching the numeric-dot-numeric pattern
(e.g. "0.15.2"), constructing a `Version` from it and converting the
`Version` back to a string yields the original string. -/
theorem c8_version_roundtrip (s : String) (hs : numericDotNumeric s = true) :
    (Version.from_string s).str = s := by
  unfold Version.from_string Version.str
  rw [joinDots_splitDots]
  cases s
  rfl

/-- Witness for C8 at the spec's example string. -/
theorem c8_version_roundtrip_witness :
    numericDotNumeric "0.15.2" = true ∧ (Version.from_string "0.15.2").str = "0.15.2" :=
  ⟨by decide, c8_version_roundtrip "0.15.2" (by decide)⟩

/-- C4: the run-command helper returns the trimmed standard output when the
command reports success, returns nothing when the command produces no
capturable result, and otherwise raises a generic execution error whose
message carries the failed command string; and such an error is never
caught, so after a command failure (here: the first checkout of
`create_version`) no subsequent orchestration step executes — the failing
command is the last command in the trace and the descriptor is never
written. -/
theorem c4_run_command_contract (r : CmdResult) (c : Cmd) (w : World) (v : Version)
    (s : DocsState)
    (hdup : v ∉ w.s3Versions.map Version.from_string)
    (hfail : (w.runner (.gitCheckout v.str)).ok = false) :
    (r.truthy = true → r.ok = true → run_result r c = .ok (some (pyStrip r.stdout)))
    ∧ (r.truthy = false → run_result r c = .ok none)
    ∧ (r.truthy = true → r.ok = false →
        run_result r c = .error (.runFailed c)
        ∧ (Err.runFailed c).message = "Failed to run command: " ++ c.render)
    ∧ (∃ s', create_version w v s = .err (.commandFailed (.gitCheckout v.str)) s'
        ∧ cmdsOf s'.events = cmdsOf s.events ++ [.gitCheckout v.str]
        ∧ descriptorWrites s'.events = descriptorWrites s.events
        ∧ s'.dataJsx = s.dataJsx) := by
  obtain ⟨new, hev, hdw, hcm⟩ := load_all_events w s
  refine ⟨?_, ?_, ?_,
    ⟨pushEvent (.cmd (.gitCheckout v.str)) (load_all_versioned_docs w s).2, ?_, ?_, ?_, ?_⟩⟩
  · intro ht ho
    simp [run_result, ht, ho]
  · intro ht
    simp [run_result, ht]
  · intro ht ho
    exact ⟨by simp [run_result, ht, ho], rfl⟩
  · unfold create_version
    simp only [load_all_fst]
    rw [if_neg hdup]
    simp [ctx_run, Res.bind, hfail, pushEvent]
  · simp only [pushEvent, cmdsOf_append, hev]
    rw [hcm]
    simp [cmdsOf]
  · simp only [pushEvent, descriptorWrites_append, hev]
    rw [hdw]
    simp [descriptorWrites]
  · simp only [pushEvent]
    exact load_all_dataJsx w s

/-- A world whose git-checkout commands fail and whose other commands
succeed; the versions archive lists only "1.0.0". -/
def c4World : World where
  runner := fun c =>
    match c with
    | .gitCheckout _ => ⟨true, false, "x"⟩
    | _ => ⟨true, true, "out"⟩
  s3CodeDeposit := []
  s3Versions := ["1.0.0"]
  codeDeposit := fun _ => []

/-- A small starting state for witnesses. -/
def initState : DocsState where
  versionedCode := none
  dataJsx := "OLD DESCRIPTOR"
  git := ⟨"develop", "develop"⟩
  events := []

/-- Witness for C4: evaluating the contract at concrete results and at a
concrete failing run of `create_version`. -/
theorem c4_run_command_contract_witness :
    run_result ⟨true, true, " out "⟩ .gitTag = .ok (some "out")
    ∧ run_result ⟨false, true, "x"⟩ .gitTag = .ok none
    ∧ run_result ⟨true, false, "x"⟩ .gitTag = .error (.runFailed .gitTag)
    ∧ ∃ s', create_version c4World (Version.from_string "9.9.9") initState
        = .err (.commandFailed (.gitCheckout (Version.from_string "9.9.9").str)) s'
        ∧ cmdsOf s'.events = [.gitCheckout (Version.from_string "9.9.9").str]
        ∧ descriptorWrites s'.events = []
        ∧ s'.dataJsx = "OLD DESCRIPTOR" := by
  have hA := (c4_run_command_contract ⟨true, true, " out "⟩ .gitTag c4World
    (Version.from_string "9.9.9") initState (by decide) (by decide)).1 rfl rfl
  have hB := (c4_run_command_contract ⟨false, true, "x"⟩ .gitTag c4World
    (Version.from_string "9.9.9") initState (by decide) (by decide)).2.1 rfl
  obtain ⟨_, _, h3, h4⟩ := c4_run_command_contract ⟨true, false, "x"⟩ .gitTag c4World
    (Version.from_string "9.9.9") initState (by decide) (by decide)
  refine ⟨?_, hB, (h3 rfl rfl).1, ?_⟩
  · rw [hA]
    rw [show pyStrip " out " = "out" by decide]
  · obtain ⟨s', he, hc, hd, hj⟩ := h4
    exact ⟨s', he, by simpa using hc, by simpa using hd, hj⟩

/-- C1 (amended): when the requested version is already in the loaded
version set, `create_version` raises "version already exists" before any
version-control or descriptor-file mutation and before running any
external command — but only after the load step has already deleted and
rebuilt the `versioned_code` directory from the remote archive, so the
pre-call `versioned_code` contents are not preserved. -/
theorem c1_amended_duplicate_rejection (w : World) (v : Version) (s : DocsState)
    (hdup : v ∈ w.s3Versions.map Version.from_string) :
    ∃ s', create_version w v s = .err (.duplicateVersion v.str) s'
      ∧ s'.git = s.git
      ∧ s'.dataJsx = s.dataJsx
      ∧ cmdsOf s'.events = cmdsOf s.events
      ∧ descriptorWrites s'.events = descriptorWrites s.events
      ∧ s'.versionedCode = some (extractEntries [] w.s3CodeDeposit) := by
  obtain ⟨new, hev, hdw, hcm⟩ := load_all_events w s
  refine ⟨(load_all_versioned_docs w s).2, ?_, load_all_git w s, load_all_dataJsx w s,
    ?_, ?_, load_all_versionedCode w s⟩
  · unfold create_version
    simp only [load_all_fst]
    rw [if_pos hdup]
  · rw [hev, cmdsOf_append, hcm, List.append_nil]
  · rw [hev, descriptorWrites_append, hdw, List.append_nil]

/-- Witness for the amended C1 at a concrete duplicate version. -/
theorem c1_amended_duplicate_rejection_witness :
    (Version.from_string "1.0.0") ∈ c4World.s3Versions.map Version.from_string
    ∧ ∃ s', create_version c4World (Version.from_string "1.0.0") initState
        = .err (.duplicateVersion (Version.from_string "1.0.0").str) s'
      ∧ s'.git = initState.git
      ∧ s'.dataJsx = initState.dataJsx
      ∧ cmdsOf s'.events = cmdsOf initState.events :=
  ⟨by decide,
    match c1_amended_duplicate_rejection c4World (Version.from_string "1.0.0") initState
      (by decide) with
    | ⟨s', h1, h2, h3, h4, _, _⟩ => ⟨s', h1, h2, h3, h4⟩⟩

/-- A world whose versions archive lists "1.2.3" and deposits nothing into
`versioned_code`. -/
def c1World : World where
  runner := fun _ => ⟨true, true, "out"⟩
  s3CodeDeposit := []
  s3Versions := ["1.2.3"]
  codeDeposit := fun _ => []

/-- A starting state whose `versioned_code` directory contains a stale
entry. -/
def c1State : DocsState where
  versionedCode := some [("stale-dir", .file "stale")]
  dataJsx := "OLD"
  git := ⟨"develop", "develop"⟩
  events := []

/-- Counterexample to C1 as stated: requesting creation of the duplicate
version "1.2.3" raises the "version already exists" error, yet at that
moment the `versioned_code` directory is NOT unchanged from its pre-call
state — the load step already deleted and rebuilt it. -/
theorem c1_counterexample :
    ∃ s', create_version c1World (Version.from_string "1.2.3") c1State
        = .err (.duplicateVersion (Version.from_string "1.2.3").str) s'
      ∧ s'.versionedCode ≠ c1State.versionedCode := by
  refine ⟨_, rfl, ?_⟩
  simp [load_all_versioned_docs, pushEvent, extractEntries, c1State, c1World]

theorem invoke_api_docs_ok_frame {w : World} {s : DocsState} {x : Unit}
    {s' : DocsState} (h : invoke_api_docs w s = .ok x s') :
    s'.dataJsx = s.dataJsx ∧ s'.git = s.git ∧
      s'.events = s.events ++ [.cmd .invokeApiDocs] := by
  unfold invoke_api_docs at h
  obtain ⟨out, sm, h1, h2⟩ := Res.bind_eq_ok h
  obtain ⟨hd, hv, hev, hgit⟩ := run_step_ok_frame h1
  injection h2 with h2a h2b
  subst h2b
  refine ⟨hd, ?_, hev⟩
  rcases hgit with hg | hg
  · simpa [applyGitEffect] using hg
  · exact hg

/-- The success path of `create_version`: the final descriptor contents
equal the pre-run contents, the final checked-out head equals the pre-run
head, and exactly two descriptor writes happen — the generated module,
then the restoration of the pre-run contents. -/
theorem create_version_ok_spec {w : World} {v : Version} {s s' : DocsState}
    (hok : create_version w v s = .ok () s') :
    s'.dataJsx = s.dataJsx ∧ s'.git.head = s.git.head ∧
      descriptorWrites s'.events
        = descriptorWrites s.events ++ [release_version_content v.str, s.dataJsx] := by
  obtain ⟨newL, hevL, hdwL, hcmL⟩ := load_all_events w s
  unfold create_version at hok
  simp only [read_prior_release_version_file, write_release_version, pushEvent] at hok
  split at hok
  · exact Res.noConfusion hok
  · obtain ⟨a1, s2, h1, hok⟩ := Res.bind_eq_ok hok
    obtain ⟨hr1, rfl⟩ := ctx_run_eq_ok h1
    obtain ⟨a2, s4, h4, hok⟩ := Res.bind_eq_ok hok
    obtain ⟨hr4, rfl⟩ := ctx_run_eq_ok h4
    obtain ⟨a5, s5, h5, hok⟩ := Res.bind_eq_ok hok
    obtain ⟨hd5, hg5, new5, hev5, hdw5, hcm5⟩ := load_versioned_code_ok_frame h5
    obtain ⟨a7, s7, h7, hok⟩ := Res.bind_eq_ok hok
    obtain ⟨hr7, rfl⟩ := ctx_run_eq_ok h7
    obtain ⟨a9, s9, h9, hok⟩ := Res.bind_eq_ok hok
    obtain ⟨hr9, rfl⟩ := ctx_run_eq_ok h9
    obtain ⟨a10, s10, h10, hok⟩ := Res.bind_eq_ok hok
    obtain ⟨hd10, hg10, hev10⟩ := invoke_api_docs_ok_frame h10
    obtain ⟨a11, s11, h11, hok⟩ := Res.bind_eq_ok hok
    obtain ⟨hr11, rfl⟩ := ctx_run_eq_ok h11
    injection hok with hoka hokb
    subst hokb
    refine ⟨?_, ?_, ?_⟩
    · simp only [DocsState.dataJsx] at hd10 hd5 ⊢
      simp [hd10, hd5, load_all_dataJsx]
    · simp only [DocsState.git] at hg10 hg5 ⊢
      simp [hg10, hg5, applyGitEffect, load_all_git]
    · simp only [DocsState.events] at hev10 hev5 ⊢
      rw [hev10, hev5]
      simp only [hevL, List.append_assoc, descriptorWrites_append, hdwL, hdw5]
      simp [descriptorWrites, hd5, hd10, load_all_dataJsx]

/-- C2: for every run of `create_version` that completes without error,
the descriptor file's final contents equal the contents it had immediately
before the run, and the checked-out branch at completion equals the branch
recorded at orchestrator construction (the branch checked out when the run
starts). -/
theorem c2_restoration_on_success (b : Builder) (w : World) (v : Version)
    (s s' : DocsState)
    (hpre : s.git.head = b.currentBranch)
    (hok : create_version w v s = .ok () s') :
    s'.dataJsx = s.dataJsx ∧ s'.git.head = b.currentBranch := by
  obtain ⟨h1, h2, h3⟩ := create_version_ok_spec hok
  exact ⟨h1, h2.trans hpre⟩

/-- A world in which every command succeeds and the tag archives have the
GitHub layout (one top-level directory named after the repository and
tag). -/
def okWorld : World where
  runner := fun _ => ⟨true, true, "out"⟩
  s3CodeDeposit := []
  s3Versions := ["1.0.0"]
  codeDeposit := fun t => [("great_expectations-" ++ t, .dir [("README.md", .file "readme")])]

/-- Witness for C2 on a concrete fully successful run. -/
theorem c2_restoration_on_success_witness :
    initState.git.head = "develop"
    ∧ ∃ s', create_version okWorld (Version.from_string "2.0.0") initState = .ok () s'
      ∧ s'.dataJsx = initState.dataJsx ∧ s'.git.head = "develop" :=
  ⟨rfl, ⟨_, rfl,
    (c2_restoration_on_success ⟨false, true, "c0ffee", "develop"⟩ okWorld
      (Version.from_string "2.0.0") initState _ rfl rfl).1,
    (c2_restoration_on_success ⟨false, true, "c0ffee", "develop"⟩ okWorld
      (Version.from_string "2.0.0") initState _ rfl rfl).2⟩⟩

/-- C5: the descriptor file written by `create_version v` is the generated
module exporting `release_version` (a fixed string naming the release
`v`), `min_python` and `max_python`, where the `min_python` and
`max_python` values are hard-coded to the same value; on a successful run
it is the first of exactly two descriptor writes, the second being the
restoration of the pre-run contents. -/
theorem c5_descriptor_module (w : World) (v : Version) (s s' : DocsState)
    (hok : create_version w v s = .ok () s') :
    descriptorWrites s'.events
      = descriptorWrites s.events ++ [release_version_content v.str, s.dataJsx]
    ∧ ∃ p, release_version_content v.str
        = String.intercalate "\n"
            ["// this file is autogenerated",
             "export default \x7b",
             "  release_version: \x27great_expectations, version " ++ v.str ++ "\x27,",
             "   min_python: \x27" ++ p ++ "\x27,",
             "   max_python: \x27" ++ p ++ "\x27,",
             "\x7d"] :=
  ⟨(create_version_ok_spec hok).2.2, ⟨"3.8", rfl⟩⟩

/-- Witness for C5 on a concrete fully successful run. -/
theorem c5_descriptor_module_witness :
    ∃ s', create_version okWorld (Version.from_string "2.0.0") initState = .ok () s'
      ∧ descriptorWrites s'.events
          = [release_version_content (Version.from_string "2.0.0").str, "OLD DESCRIPTOR"] :=
  ⟨_, rfl, by
    have h := (c5_descriptor_module okWorld (Version.from_string "2.0.0") initState _ rfl).1
    simpa [initState, descriptorWrites] using h⟩

theorem findEntry_append_of_none {n : String} {l₁ l₂ : List (String × FsTree)}
    (h : findEntry n l₁ = none) : findEntry n (l₁ ++ l₂) = findEntry n l₂ := by
  induction l₁ with
  | nil => rfl
  | cons e rest ih =>
    obtain ⟨n₁, t₁⟩ := e
    simp only [findEntry] at h
    simp only [List.cons_append, findEntry]
    split at h
    · exact Option.noConfusion h
    · rename_i hne
      rw [if_neg hne]
      exact ih h

theorem filter_ne_of_findEntry_none {n : String} {l : List (String × FsTree)}
    (h : findEntry n l = none) : l.filter (fun e => decide (e.1 ≠ n)) = l := by
  induction l with
  | nil => rfl
  | cons e rest ih =>
    obtain ⟨n₁, t₁⟩ := e
    simp only [findEntry] at h
    split at h
    · exact Option.noConfusion h
    · rename_i hne
      simp only [List.filter_cons]
      rw [if_pos (by simpa using hne)]
      rw [ih h]

theorem any_eq_false_of_findEntry_none {n : String} {l : List (String × FsTree)}
    (h : findEntry n l = none) : l.any (fun e => decide (e.1 = n)) = false := by
  induction l with
  | nil => rfl
  | cons e rest ih =>
    obtain ⟨n₁, t₁⟩ := e
    simp only [findEntry] at h
    split at h
    · exact Option.noConfusion h
    · rename_i hne
      simp only [List.any_cons]
      rw [ih h]
      simpa using hne

theorem ver_ne_ge (x : String) :
    ("version-" ++ x) ≠ ("great_expectations-" ++ x) := by
  intro h
  have h2 := congrArg String.length h
  rw [String.length_append, String.length_append] at h2
  have e1 : ("version-").length = 8 := rfl
  have e2 : ("great_expectations-").length = 19 := rfl
  rw [e1, e2] at h2
  omega

/-- C3 (amended): after loading versioned code for `v` from a
GitHub-shaped archive (one top-level directory
`great_expectations-<v>`), **provided no directory already exists at
`versioned_code/version-<v>`** (and no stale `great_expectations-<v>`
directory is present), the directory `versioned_code/version-<v>` exists
and holds exactly the archive's extracted content, and
`versioned_code/great_expectations-<v>` no longer exists.  When a
directory already exists at `version-<v>`, `shutil.move` instead moves
the extracted directory *inside* it (see `c3_counterexample`); it does not
replace it. -/
theorem c3_amended_directory_normalization (w : World) (v : Version) (s : DocsState)
    (t : FsTree)
    (harch : w.codeDeposit v.str = [("great_expectations-" ++ v.str, t)])
    (hge : findEntry ("great_expectations-" ++ v.str) (s.versionedCode.getD []) = none)
    (hver : findEntry ("version-" ++ v.str) (s.versionedCode.getD []) = none) :
    ∃ s', load_versioned_code w v s = .ok () s'
      ∧ findEntry ("version-" ++ v.str) (s'.versionedCode.getD []) = some t
      ∧ findEntry ("great_expectations-" ++ v.str) (s'.versionedCode.getD []) = none := by
  have hup : extractEntries (s.versionedCode.getD []) (w.codeDeposit v.str)
      = s.versionedCode.getD [] ++ [("great_expectations-" ++ v.str, t)] := by
    rw [harch]
    simp only [extractEntries, List.foldl_cons, List.foldl_nil, upsert]
    rw [if_neg (by rw [any_eq_false_of_findEntry_none hge]; simp)]
  have hfind : findEntry ("great_expectations-" ++ v.str)
      (s.versionedCode.getD [] ++ [("great_expectations-" ++ v.str, t)])
      = some t := by
    rw [findEntry_append_of_none hge]
    simp [findEntry]
  have hrest : (s.versionedCode.getD [] ++ [("great_expectations-" ++ v.str, t)]).filter
      (fun e => decide (e.1 ≠ "great_expectations-" ++ v.str))
      = s.versionedCode.getD [] := by
    rw [List.filter_append, filter_ne_of_findEntry_none hge]
    simp [List.filter_cons]
  have hmove : moveEntry
      (extractEntries (s.versionedCode.getD []) (w.codeDeposit v.str))
      ("great_expectations-" ++ v.str) ("version-" ++ v.str)
      = .ok (s.versionedCode.getD [] ++ [("version-" ++ v.str, t)]) := by
    rw [hup]
    unfold moveEntry
    rw [hfind]
    simp only [hrest]
    rw [hver]
  refine ⟨{ s with
      versionedCode := some (s.versionedCode.getD [] ++ [("version-" ++ v.str, t)]),
      events := s.events ++ [.httpGet (codeArchiveUrl v.str), .extract "versioned_code",
        .move ("great_expectations-" ++ v.str) ("version-" ++ v.str)] }, ?_, ?_, ?_⟩
  · simp only [load_versioned_code, pushEvent]
    rw [show ((({ s with
        events := s.events ++ [Event.httpGet (codeArchiveUrl v.str)] } :
        DocsState)).versionedCode.getD []) = s.versionedCode.getD [] from rfl]
    rw [hmove]
    simp [List.append_assoc]
  · simp only [Option.getD_some]
    rw [findEntry_append_of_none hver]
    simp [findEntry]
  · simp only [Option.getD_some]
    rw [findEntry_append_of_none hge]
    simp only [findEntry]
    rw [if_neg (ver_ne_ge v.str)]

/-- A world whose tag archives have the GitHub layout, for the C3
counterexample. -/
def c3World : World where
  runner := fun _ => ⟨true, true, "out"⟩
  s3CodeDeposit := []
  s3Versions := []
  codeDeposit := fun t => [("great_expectations-" ++ t, .dir [("README.md", .file "readme")])]

/-- A starting state that already has a directory at
`versioned_code/version-1.2.3`. -/
def c3State : DocsState where
  versionedCode := some [("version-1.2.3", .dir [("old.txt", .file "old")])]
  dataJsx := "OLD"
  git := ⟨"develop", "develop"⟩
  events := []

/-- The state `load_versioned_code` actually produces from `c3State`:
the extracted directory ends up nested inside the pre-existing
`version-1.2.3` directory. -/
def c3Final : DocsState where
  versionedCode :=
    some [("version-1.2.3",
      .dir [("great_expectations-1.2.3", .dir [("README.md", .file "readme")]),
            ("old.txt", .file "old")])]
  dataJsx := "OLD"
  git := ⟨"develop", "develop"⟩
  events := [.httpGet (codeArchiveUrl "1.2.3"), .extract "versioned_code",
    .move "great_expectations-1.2.3" "version-1.2.3"]

/-- Counterexample to C3 as stated: when a directory already exists at
`versioned_code/version-1.2.3`, loading versioned code for `1.2.3`
succeeds but `shutil.move` moves the extracted
`great_expectations-1.2.3` directory *inside* the existing
`version-1.2.3` directory: the old contents survive and `version-1.2.3`
does not hold the archive's extracted content — the existing directory
was not replaced. -/
theorem c3_counterexample :
    ∃ s', load_versioned_code c3World (Version.from_string "1.2.3") c3State = .ok () s'
      ∧ findEntry "version-1.2.3" (s'.versionedCode.getD [])
          = some (.dir [("great_expectations-1.2.3", .dir [("README.md", .file "readme")]),
                        ("old.txt", .file "old")])
      ∧ findEntry "version-1.2.3" (s'.versionedCode.getD [])
          ≠ some (.dir [("README.md", .file "readme")]) := by
  refine ⟨c3Final, ?_, ?_, ?_⟩
  · rfl
  · rfl
  · simp [c3Final, findEntry]

/-- Witness for the amended C3 on a fresh `versioned_code` directory. -/
theorem c3_amended_directory_normalization_witness :
    ∃ s', load_versioned_code c3World (Version.from_string "1.2.3") initState = .ok () s'
      ∧ findEntry ("version-" ++ (Version.from_string "1.2.3").str)
          (s'.versionedCode.getD []) = some (.dir [("README.md", .file "readme")])
      ∧ findEntry ("great_expectations-" ++ (Version.from_string "1.2.3").str)
          (s'.versionedCode.getD []) = none :=
  c3_amended_directory_normalization c3World (Version.from_string "1.2.3") initState
    (.dir [("README.md", .file "readme")]) rfl rfl rfl

theorem charListLeb_refl (cs : List Char) : charListLeb cs cs = true := by
  induction cs with
  | nil => rfl
  | cons c rest ih => simp [charListLeb, lt_irrefl, ih]

theorem charListLeb_trans : ∀ (a b c : List Char),
    charListLeb a b = true → charListLeb b c = true → charListLeb a c = true
  | [], _, _, _, _ => rfl
  | _ :: _, [], _, h, _ => by simp [charListLeb] at h
  | _ :: _, _ :: _, [], _, h => by simp [charListLeb] at h
  | a :: as, b :: bs, c :: cs, h1, h2 => by
    simp only [charListLeb] at h1 h2 ⊢
    rcases lt_trichotomy a b with hab | hab | hab
    · rcases lt_trichotomy b c with hbc | hbc | hbc
      · simp [lt_trans hab hbc]
      · subst hbc
        simp [hab]
      · rw [if_neg (lt_asymm hbc), if_pos hbc] at h2
        exact absurd h2 (by simp)
    · subst hab
      rcases lt_trichotomy a c with hac | hac | hac
      · simp [hac]
      · subst hac
        simp only [lt_irrefl, ite_false] at h1 h2 ⊢
        exact charListLeb_trans as bs cs h1 h2
      · rw [if_neg (lt_asymm hac), if_pos hac] at h2
        exact absurd h2 (by simp)
    · rw [if_neg (lt_asymm hab), if_pos hab] at h1
      exact absurd h1 (by simp)

theorem charListLeb_total : ∀ (a b : List Char),
    (charListLeb a b || charListLeb b a) = true
  | [], _ => by simp [charListLeb]
  | _ :: _, [] => by simp [charListLeb]
  | a :: as, b :: bs => by
    simp only [charListLeb]
    rcases lt_trichotomy a b with h | h | h
    · simp [h, lt_asymm h]
    · subst h
      simp only [lt_irrefl, ite_false]
      exact charListLeb_total as bs
    · simp [h, lt_asymm h]

theorem pyStrLe_trans (a b c : String) (h1 : pyStrLe a b = true)
    (h2 : pyStrLe b c = true) : pyStrLe a c = true :=
  charListLeb_trans a.toList b.toList c.toList h1 h2

theorem pyStrLe_total (a b : String) : (pyStrLe a b || pyStrLe b a) = true :=
  charListLeb_total a.toList b.toList

theorem mem_of_getLast?' {α : Type} : ∀ {l : List α} {t : α},
    l.getLast? = some t → t ∈ l
  | [], t, h => by simp at h
  | [a], t, h => by
    simp at h
    simp [h]
  | a :: b :: l, t, h => by
    rw [List.getLast?_cons_cons] at h
    exact List.mem_cons_of_mem a (mem_of_getLast?' h)

theorem pairwise_getLast_max {le : String → String → Bool}
    (hrefl : ∀ a, le a a = true) :
    ∀ {l : List String}, l.Pairwise (fun a b => le a b = true) →
      ∀ {t : String}, l.getLast? = some t → ∀ u ∈ l, le u t = true := by
  intro l
  induction l with
  | nil =>
    intro _ t h
    simp at h
  | cons a rest ih =>
    intro hp t hlast u hu
    rcases List.pairwise_cons.mp hp with ⟨ha, hp2⟩
    cases rest with
    | nil =>
      simp at hlast
      simp at hu
      subst hlast
      subst hu
      exact hrefl _
    | cons b r2 =>
      rw [List.getLast?_cons_cons] at hlast
      rcases List.mem_cons.mp hu with rfl | hu2
      · exact ha t (mem_of_getLast?' hlast)
      · exact ih hp2 hlast u hu2

/-- A world whose `git tag` output contains both "0.9.0" and "0.15.2". -/
def c9World : World where
  runner := fun c =>
    match c with
    | .gitTag => ⟨true, true, "0.9.0 0.15.2"⟩
    | _ => ⟨true, true, "out"⟩
  s3CodeDeposit := []
  s3Versions := []
  codeDeposit := fun _ => []

theorem run_step_ok_out {w : World} {c : Cmd} {s : DocsState}
    {out : Option String} {s' : DocsState} (h : run_step w c s = .ok out s') :
    out = none ∨ out = some (pyStrip (w.runner c).stdout) := by
  cases ht : (w.runner c).truthy with
  | false =>
    left
    simp only [run_step, run_result, ht, pushEvent, Bool.not_false, if_pos] at h
    injection h with h1 _
    exact h1.symm
  | true =>
    cases ho : (w.runner c).ok with
    | false =>
      simp only [run_step, run_result, ht, ho, pushEvent, Bool.not_true, Bool.not_false,
        Bool.false_eq_true, if_false, if_true] at h
      exact absurd h (by simp)
    | true =>
      right
      simp only [run_step, run_result, ht, ho, pushEvent, Bool.not_true, Bool.not_false,
        Bool.false_eq_true, if_false, if_true] at h
      injection h with h1 _
      exact h1.symm

unseal List.merge List.mergeSort in
/-- C9: the latest-tag helper returns the maximum under lexicographic
string ordering of the tags matching the pattern ([0-9]+\.)+[0-9]+; on a
tag list containing both "0.9.0" and "0.15.2" it returns "0.9.0", which is
not the maximum under numeric version ordering, since "0.9.0" is
numerically less than "0.15.2". -/
theorem c9_latest_tag_lexicographic (w : World) (s : DocsState) (t : String)
    (s' : DocsState) (h : latest_tag w s = .ok t s') :
    (t ∈ (splitWS (pyStrip (w.runner .gitTag).stdout)).filter tag_match
      ∧ tag_match t = true
      ∧ ∀ u ∈ (splitWS (pyStrip (w.runner .gitTag).stdout)).filter tag_match,
          pyStrLe u t = true)
    ∧ (∃ s₂, latest_tag c9World initState = .ok "0.9.0" s₂)
    ∧ pyStrLe "0.15.2" "0.9.0" = true
    ∧ numericVersionLt "0.9.0" "0.15.2" = true := by
  refine ⟨?_, ⟨_, rfl⟩, by decide, by decide⟩
  unfold latest_tag at h
  obtain ⟨out, sm, h1, h2⟩ := Res.bind_eq_ok h
  rcases run_step_ok_out h1 with rfl | rfl
  · exact absurd h2 (by simp)
  · simp only [] at h2
    split at h2
    · exact Res.noConfusion h2
    · rename_i t' hlast
      injection h2 with h2a h2b
      subst h2a
      have hperm := List.mergeSort_perm
        ((splitWS (pyStrip (w.runner .gitTag).stdout)).filter tag_match) pyStrLe
      have hmem : t' ∈ (splitWS (pyStrip (w.runner .gitTag).stdout)).filter tag_match :=
        hperm.mem_iff.mp (mem_of_getLast?' hlast)
      refine ⟨hmem, (List.mem_filter.mp hmem).2, ?_⟩
      intro u hu
      have hu2 : u ∈ ((splitWS (pyStrip (w.runner .gitTag).stdout)).filter
          tag_match).mergeSort pyStrLe := hperm.mem_iff.mpr hu
      have hsorted := List.sorted_mergeSort pyStrLe_trans pyStrLe_total
        ((splitWS (pyStrip (w.runner .gitTag).stdout)).filter tag_match)
      exact pairwise_getLast_max (fun a => charListLeb_refl a.toList) hsorted hlast u hu2

unseal List.merge List.mergeSort in
/-- Witness for C9: applying the theorem to the concrete world where
`git tag` reports "0.9.0 0.15.2". -/
theorem c9_latest_tag_lexicographic_witness :
    ∃ s₂, latest_tag c9World initState = .ok "0.9.0" s₂
      ∧ tag_match "0.9.0" = true
      ∧ pyStrLe "0.15.2" "0.9.0" = true
      ∧ numericVersionLt "0.9.0" "0.15.2" = true := by
  refine ⟨_, rfl, ?_, ?_, by decide⟩
  · exact (c9_latest_tag_lexicographic c9World initState "0.9.0" _ rfl).1.2.1
  · exact (c9_latest_tag_lexicographic c9World initState "0.9.0" _ rfl).1.2.2
      "0.15.2" (by decide)

theorem not_cmd_mem_of_cmdsOf_nil {new : List Event} (h : cmdsOf new = [])
    (c : Cmd) : Event.cmd c ∉ new := by
  intro hmem
  have hc : c ∈ cmdsOf new := by
    unfold cmdsOf
    exact List.mem_filterMap.mpr ⟨Event.cmd c, hmem, rfl⟩
  rw [h] at hc
  exact absurd hc (List.not_mem_nil c)

/-- C10: at the end of the prepare sequence used by `build_docs_locally`,
the orchestrator checks out the branch name recorded at construction when
running locally, and otherwise checks out the commit hash recorded at
construction — the last effect of a successful prepare is that checkout
command, and the resulting head is the recorded branch (resp. commit);
`build_docs`, by contrast, performs no checkout at all. -/
theorem c10_checkout_restoration (b : Builder) (w : World) (s : DocsState) :
    (∀ s', prepare b w s = .ok () s' →
      s'.events.getLast? = some (.cmd (.gitCheckout
        (if b.isLocal then b.currentBranch else b.currentCommit))))
    ∧ (∀ s', build_docs w s = .ok () s' →
      ∃ new, s'.events = s.events ++ new
        ∧ (∀ r, Event.cmd (.gitCheckout r) ∉ new)
        ∧ Event.cmd .gitCheckoutDash ∉ new) := by
  constructor
  · intro s' hok
    unfold prepare at hok
    obtain ⟨vs, s1, h1, hok⟩ := Res.bind_eq_ok hok
    simp only [pushEvent] at hok
    obtain ⟨u2, s2, h2, hok⟩ := Res.bind_eq_ok hok
    unfold checkout_correct_branch at hok
    split at hok
    · rename_i hl
      obtain ⟨u3, s3, h3, hok⟩ := Res.bind_eq_ok hok
      obtain ⟨_, _, hev, _⟩ := run_step_ok_frame h3
      injection hok with hoka hokb
      subst hokb
      rw [if_pos hl, hev, List.getLast?_concat]
    · rename_i hl
      obtain ⟨u3, s3, h3, hok⟩ := Res.bind_eq_ok hok
      obtain ⟨_, _, hev, _⟩ := run_step_ok_frame h3
      injection hok with hoka hokb
      subst hokb
      rw [if_neg hl, hev, List.getLast?_concat]
  · intro s' hok
    unfold build_docs at hok
    obtain ⟨u1, s1, h1, hok⟩ := Res.bind_eq_ok hok
    obtain ⟨hd1, hg1, hev1⟩ := invoke_api_docs_ok_frame h1
    obtain ⟨hr2, rfl⟩ := ctx_run_eq_ok hok
    obtain ⟨newL, hevL, hdwL, hcmL⟩ := load_all_events w s
    refine ⟨newL ++ [.cmd .invokeApiDocs, .cmd .yarnBuild], ?_, ?_, ?_⟩
    · show s1.events ++ [Event.cmd Cmd.yarnBuild] = _
      rw [hev1, hevL]
      simp [List.append_assoc]
    · intro r hmem
      rcases List.mem_append.mp hmem with hmem | hmem
      · exact not_cmd_mem_of_cmdsOf_nil hcmL _ hmem
      · simp at hmem
    · intro hmem
      rcases List.mem_append.mp hmem with hmem | hmem
      · exact not_cmd_mem_of_cmdsOf_nil hcmL _ hmem
      · simp at hmem

/-- Witness for C10: a concrete successful local prepare run ends with the
checkout of the recorded branch, and a concrete successful `build_docs`
run contains no checkout. -/
theorem c10_checkout_restoration_witness :
    (∃ s', prepare ⟨false, true, "c0ffee", "develop"⟩ okWorld initState = .ok () s'
      ∧ s'.events.getLast? = some (.cmd (.gitCheckout "develop")))
    ∧ (∃ s', build_docs okWorld initState = .ok () s'
      ∧ ∃ new, s'.events = initState.events ++ new
        ∧ Event.cmd .gitCheckoutDash ∉ new) := by
  constructor
  · refine ⟨_, rfl, ?_⟩
    have h := (c10_checkout_restoration ⟨false, true, "c0ffee", "develop"⟩ okWorld
      initState).1 _ rfl
    simpa using h
  · refine ⟨_, rfl, ?_⟩
    obtain ⟨new, hev, hgc, hdash⟩ := (c10_checkout_restoration
      ⟨false, true, "c0ffee", "develop"⟩ okWorld initState).2 _ rfl
    exact ⟨new, hev, hdash⟩

end DocsBuild
